import Mathlib

/-!
# Verification of the Foodgram recipe-sharing backend

A shallow embedding of the `recipes` app of the Foodgram Django backend
(`backend/recipes/models.py`, `views.py`, `serializers.py`,
`permissions.py`).  Database tables become lists of rows, the HTTP
endpoints become pure functions from a `State` and request data to an
HTTP status code plus the successor `State`, and Django/DRF framework
behaviour (permission checks, `get_object` 404s, keyword-argument
passing in `Serializer.save`) is translated explicitly where the
endpoints rely on it.
-/

set_option linter.unusedVariables false

/-- HTTP methods relevant to the API surface. -/
inductive Method where
  | get
  | post
  | patch
  | delete
deriving DecidableEq, Repr

/-- `rest_framework.permissions.SAFE_METHODS` (GET, HEAD, OPTIONS); only GET
occurs in the API surface modelled here. -/
def SAFE_METHODS : List Method := [Method.get]

/-- A row of the `Tag` table (`recipes/models.py`, class `Tag`). -/
structure TagRow where
  id : Nat
  name : String
  color : String
  slug : String
deriving DecidableEq, Repr

/-- A row of the `Ingredient` table (`recipes/models.py`, class `Ingredient`):
a name plus a measurement unit. -/
structure IngredientRow where
  id : Nat
  name : String
  measurement_unit : String
deriving DecidableEq, Repr

/-- A row of the `Recipe` table (`recipes/models.py`, class `Recipe`).
`tags` embeds the implicit many-to-many table behind `Recipe.tags`;
`pub_date` is the auto-set publication timestamp, modelled as a `Nat`. -/
structure RecipeRow where
  id : Nat
  author : Nat
  name : String
  text : String
  tags : List Nat
  cooking_time : Nat
  pub_date : Nat
deriving DecidableEq, Repr

/-- A row of the `RecipeIngredient` through table
(`recipes/models.py`, class `RecipeIngredient`). -/
structure RIRow where
  recipe : Nat
  ingredient : Nat
  amount : Int
deriving DecidableEq, Repr

/-- The database state: one list of rows per table.  `favorites`,
`shoppingCarts` and `subscriptions` are the `Favorite`, `ShoppingCart`
and `Subscription` join tables, with rows identified by their two
foreign keys (`(user, recipe)` resp. `(user, author)`); the auto
timestamp columns carry no behaviour and are omitted. -/
structure State where
  users : List Nat
  tags : List TagRow
  ingredients : List IngredientRow
  recipes : List RecipeRow
  recipeIngredients : List RIRow
  favorites : List (Nat × Nat)
  shoppingCarts : List (Nat × Nat)
  subscriptions : List (Nat × Nat)
deriving DecidableEq, Repr

/-- `IsAuthorOrReadOnly.has_object_permission` (`recipes/permissions.py`):
safe methods are always allowed, otherwise the object's author must equal
`request.user` (`none` is the anonymous user, which never equals a user). -/
def has_object_permission (method : Method) (user : Option Nat) (author : Nat) : Bool :=
  if method ∈ SAFE_METHODS then true
  else user == some author

/-- `RecipeViewSet.favorite` (`recipes/views.py`): POST
`/recipes/{pk}/favorite/`.  `IsAuthenticated` rejects anonymous users
with 401; `get_object` yields 404 for an unknown recipe id; a duplicate
favourite row yields 400; otherwise the row `(user, recipe)` is created
and 201 returned. -/
def favorite (s : State) (user : Option Nat) (pk : Nat) : Nat × State :=
  match user with
  | none => (401, s)
  | some u =>
    if s.recipes.any (fun r => r.id == pk) then
      if s.favorites.any (fun p => p.1 == u && p.2 == pk) then
        (400, s)
      else
        (201, { s with favorites := s.favorites ++ [(u, pk)] })
    else (404, s)

/-- `RecipeViewSet.delete_favorite` (`recipes/views.py`): DELETE
`/recipes/{pk}/favorite/` deletes the matching `Favorite` rows and
returns 204 when at least one row was deleted, 400 otherwise. -/
def delete_favorite (s : State) (user : Option Nat) (pk : Nat) : Nat × State :=
  match user with
  | none => (401, s)
  | some u =>
    if s.recipes.any (fun r => r.id == pk) then
      if s.favorites.countP (fun p => p.1 == u && p.2 == pk) ≠ 0 then
        (204, { s with favorites := s.favorites.filter (fun p => !(p.1 == u && p.2 == pk)) })
      else (400, s)
    else (404, s)

/-- `RecipeViewSet.shopping_cart` (`recipes/views.py`): POST
`/recipes/{pk}/shopping_cart/`, structurally identical to `favorite`
but acting on the `ShoppingCart` table. -/
def shopping_cart (s : State) (user : Option Nat) (pk : Nat) : Nat × State :=
  match user with
  | none => (401, s)
  | some u =>
    if s.recipes.any (fun r => r.id == pk) then
      if s.shoppingCarts.any (fun p => p.1 == u && p.2 == pk) then
        (400, s)
      else
        (201, { s with shoppingCarts := s.shoppingCarts ++ [(u, pk)] })
    else (404, s)

/-- `RecipeViewSet.delete_shopping_cart` (`recipes/views.py`): DELETE
`/recipes/{pk}/shopping_cart/`. -/
def delete_shopping_cart (s : State) (user : Option Nat) (pk : Nat) : Nat × State :=
  match user with
  | none => (401, s)
  | some u =>
    if s.recipes.any (fun r => r.id == pk) then
      if s.shoppingCarts.countP (fun p => p.1 == u && p.2 == pk) ≠ 0 then
        (204, { s with shoppingCarts := s.shoppingCarts.filter (fun p => !(p.1 == u && p.2 == pk)) })
      else (400, s)
    else (404, s)

/-- `SubscriptionViewSet.create` (`recipes/views.py`): POST to the
subscriptions endpoint.  `IsAuthenticated` rejects anonymous users; a
missing author id yields 400; an id matching no user yields 404
(`User.objects.get` raises); subscribing to oneself yields 400; a
duplicate subscription yields 400; otherwise the row `(user, author)`
is created and 201 returned. -/
def subscriptionCreate (s : State) (user : Option Nat) (authorId : Option Nat) : Nat × State :=
  match user with
  | none => (401, s)
  | some u =>
    match authorId with
    | none => (400, s)
    | some a =>
      if s.users.contains a then
        if a == u then (400, s)
        else if s.subscriptions.any (fun p => p.1 == u && p.2 == a) then (400, s)
        else (201, { s with subscriptions := s.subscriptions ++ [(u, a)] })
      else (404, s)

/-- `SubscriptionViewSet.destroy` (`recipes/views.py`): DELETE of a
subscription by author id.  An id matching no user yields 404, a
successful deletion 204, deleting a non-existent subscription 400. -/
def subscriptionDestroy (s : State) (user : Option Nat) (authorId : Option Nat) : Nat × State :=
  match user with
  | none => (401, s)
  | some u =>
    match authorId with
    | none => (404, s)
    | some a =>
      if s.users.contains a then
        if s.subscriptions.countP (fun p => p.1 == u && p.2 == a) ≠ 0 then
          (204, { s with subscriptions := s.subscriptions.filter (fun p => !(p.1 == u && p.2 == a)) })
        else (400, s)
      else (404, s)

/-- The empty database, the state of a fresh deployment. -/
def State.empty : State :=
  { users := [], tags := [], ingredients := [], recipes := [],
    recipeIngredients := [], favorites := [], shoppingCarts := [],
    subscriptions := [] }

example :
    (subscriptionCreate
      { State.empty with users := [1, 2] } (some 1) (some 2)).1 = 201 := by decide

example :
    (subscriptionCreate
      { State.empty with users := [1, 2] } (some 1) (some 1)).1 = 400 := by decide

/-- One element of the `ingredients` list in a recipe write request
(`IngredientWriteSerializer`): a plain integer ingredient id and amount,
neither checked against the database during field validation. -/
structure IngredientInput where
  id : Nat
  amount : Int
deriving DecidableEq, Repr

/-- The body of a recipe write request (`RecipeWriteSerializer.Meta.fields`);
the image field carries no logic relevant here and is omitted. -/
structure RecipeInput where
  ingredients : List IngredientInput
  tags : List Nat
  name : String
  text : String
  cooking_time : Nat
deriving DecidableEq, Repr

/-- `IngredientWriteSerializer.validate_amount`: amounts `≤ 0` are
rejected. -/
def validate_amount (v : Int) : Bool :=
  !(v ≤ 0)

/-- `RecipeWriteSerializer.validate_ingredients`: the list must be
non-empty and must not repeat an ingredient id
(`len(ids) != len(set(ids))`). -/
def validate_ingredients (l : List IngredientInput) : Bool :=
  !l.isEmpty && decide (l.map IngredientInput.id).Nodup

/-- `RecipeWriteSerializer.validate_tags`: the list must be non-empty. -/
def validate_tags (l : List Nat) : Bool :=
  !l.isEmpty

/-- The whole of `serializer.is_valid()` for `RecipeWriteSerializer`:
per-item amount validation, the two list-level validators, and the
existence check `PrimaryKeyRelatedField(queryset=Tag.objects.all())`
performs on every submitted tag id.  Ingredient ids are *not* checked
here (`IngredientWriteSerializer.id` is a plain `IntegerField`). -/
def run_validation (s : State) (inp : RecipeInput) : Bool :=
  inp.ingredients.all (fun it => validate_amount it.amount) &&
  validate_ingredients inp.ingredients &&
  inp.tags.all (fun t => s.tags.any (fun tr => tr.id == t)) &&
  validate_tags inp.tags

/-- The `validated_data` dictionary handed to `RecipeWriteSerializer.create`
or `.update`.  `authorBound` records whether the dictionary binds the key
`author`; `Serializer.save(**kwargs)` merges its keyword arguments into
`validated_data`, so the flag is set on the `perform_create` path. -/
structure ValidatedData where
  ingredients : List IngredientInput
  tags : List Nat
  name : String
  text : String
  cooking_time : Nat
  authorBound : Bool
deriving DecidableEq, Repr

/-- `RecipeWriteSerializer._save_ingredients`: looks each id up with
`Ingredient.objects.get` — which raises `DoesNotExist` for an unknown id,
aborting the enclosing `transaction.atomic` block — and bulk-creates the
`RecipeIngredient` rows. -/
def save_ingredients (s : State) (rid : Nat) (items : List IngredientInput) :
    Except String State :=
  if items.all (fun it => s.ingredients.any (fun i => i.id == it.id)) then
    .ok { s with recipeIngredients :=
      s.recipeIngredients ++ items.map (fun it => ⟨rid, it.id, it.amount⟩) }
  else .error "Ingredient matching query does not exist."

/-- The primary key the database assigns to a freshly inserted recipe. -/
def freshRecipeId (s : State) : Nat :=
  (s.recipes.map RecipeRow.id).foldr max 0 + 1

/-- `RecipeWriteSerializer.create`: pops `ingredients` and `tags`, then
evaluates `Recipe.objects.create(author=request.user, **validated_data)`.
When `validated_data` still binds `author` — as it always does on this
path, because `RecipeViewSet.perform_create` ran
`serializer.save(author=self.request.user)` — Python raises
`TypeError: got multiple values for keyword argument 'author'` before
anything is written.  Otherwise the recipe row is inserted,
`recipe.tags.set(tags)` stores the distinct submitted tags and
`_save_ingredients` inserts the ingredient rows. -/
def serializer_create (s : State) (requestUser : Option Nat) (vd : ValidatedData)
    (pubDate : Nat) : Except String (State × Nat) :=
  if vd.authorBound then
    .error "TypeError: create() got multiple values for keyword argument author"
  else
    match requestUser with
    | none => .error "ValueError: Recipe.author must be a User instance"
    | some u =>
      let rid := freshRecipeId s
      let s1 := { s with recipes := s.recipes ++
        [⟨rid, u, vd.name, vd.text, vd.tags.dedup, vd.cooking_time, pubDate⟩] }
      (save_ingredients s1 rid vd.ingredients).map (fun s2 => (s2, rid))

/-- `Serializer.save(**kwargs)` on the create path: merges the keyword
arguments into `validated_data` (`kwargsAuthor = true` models
`save(author=...)`) and calls `create`. -/
def serializer_save_create (s : State) (requestUser : Option Nat) (vd : ValidatedData)
    (kwargsAuthor : Bool) (pubDate : Nat) : Except String (State × Nat) :=
  serializer_create s requestUser
    { vd with authorBound := vd.authorBound || kwargsAuthor } pubDate

/-- POST `/recipes/` (`CreateModelMixin.create` plus
`RecipeViewSet.perform_create`).  `IsAuthorOrReadOnly` inherits the
default `has_permission`, which allows every request, so no
authentication gate runs here; validation failure yields 400; an
exception escaping `perform_create` yields a 500 response with the
transaction rolled back. -/
def recipeCreate (s : State) (user : Option Nat) (inp : RecipeInput)
    (pubDate : Nat) : Nat × State :=
  if run_validation s inp then
    match serializer_save_create s user
        ⟨inp.ingredients, inp.tags, inp.name, inp.text, inp.cooking_time, false⟩
        true pubDate with
    | .ok (s', _) => (201, s')
    | .error _ => (500, s)
  else (400, s)

/-- `RecipeWriteSerializer.update`: updates the scalar fields, replaces
the tag set with the distinct submitted tags, and deletes-and-recreates
the instance's `RecipeIngredient` rows, all inside `transaction.atomic`. -/
def serializer_update (s : State) (rid : Nat) (vd : ValidatedData) :
    Except String State :=
  let s1 := { s with
    recipes := s.recipes.map (fun r =>
      if r.id == rid then
        { r with name := vd.name, text := vd.text,
                 cooking_time := vd.cooking_time, tags := vd.tags.dedup }
      else r),
    recipeIngredients := s.recipeIngredients.filter (fun ri => ri.recipe != rid) }
  save_ingredients s1 rid vd.ingredients

/-- PATCH `/recipes/{pk}/` (`UpdateModelMixin` under `IsAuthorOrReadOnly`):
404 for an unknown id; 401/403 unless the requester is the recipe's
author; 400 on validation failure; 500 (transaction rolled back) when
`_save_ingredients` raises; otherwise 200 with the updated state.
`perform_update` calls `serializer.save()` with no keyword arguments, so
the update path does not hit the duplicate-`author` `TypeError`. -/
def recipeUpdate (s : State) (user : Option Nat) (pk : Nat)
    (inp : RecipeInput) : Nat × State :=
  match s.recipes.find? (fun r => r.id == pk) with
  | none => (404, s)
  | some r =>
    if has_object_permission Method.patch user r.author then
      if run_validation s inp then
        match serializer_update s pk
            ⟨inp.ingredients, inp.tags, inp.name, inp.text, inp.cooking_time, false⟩ with
        | .ok s' => (200, s')
        | .error _ => (500, s)
      else (400, s)
    else
      match user with
      | none => (401, s)
      | some _ => (403, s)

/-- DELETE `/recipes/{pk}/` (`DestroyModelMixin` under
`IsAuthorOrReadOnly`): 404 for an unknown id, 401/403 unless the
requester is the author, otherwise the recipe row is deleted — the
`on_delete=CASCADE` foreign keys remove its `RecipeIngredient`,
`Favorite` and `ShoppingCart` rows — and 204 is returned. -/
def recipeDestroy (s : State) (user : Option Nat) (pk : Nat) : Nat × State :=
  match s.recipes.find? (fun r => r.id == pk) with
  | none => (404, s)
  | some r =>
    if has_object_permission Method.delete user r.author then
      (204, { s with
        recipes := s.recipes.filter (fun q => q.id != pk),
        recipeIngredients := s.recipeIngredients.filter (fun ri => ri.recipe != pk),
        favorites := s.favorites.filter (fun p => p.2 != pk),
        shoppingCarts := s.shoppingCarts.filter (fun p => p.2 != pk) })
    else
      match user with
      | none => (401, s)
      | some _ => (403, s)

/-- Keeps the first row for each key, dropping later rows whose key was
seen before: the shallow embedding of SQL duplicate elimination
(`.distinct()` / `GROUP BY`). -/
def dedupBy {α β : Type} [DecidableEq β] (key : α → β) : List α → List α
  | [] => []
  | a :: as => a :: (dedupBy key as).filter (fun b => key b != key a)

/-- Lexicographic comparison of character lists by code point: the
order SQL `ORDER BY` applies to text columns. -/
def charsLe : List Char → List Char → Bool
  | [], _ => true
  | _ :: _, [] => false
  | a :: as, b :: bs =>
    if a.toNat = b.toNat then charsLe as bs else decide (a.toNat < b.toNat)

/-- Lexicographic string comparison by code point. -/
def strLe (a b : String) : Bool :=
  charsLe a.data b.data

/-- `cs` starts with `qs`, character by character. -/
def charsStartWith : List Char → List Char → Bool
  | _, [] => true
  | [], _ :: _ => false
  | c :: cs, q :: qs => c == q && charsStartWith cs qs

/-- Django's `name__istartswith` lookup: case-insensitive prefix test,
folding both sides to lower case (ASCII case folding, as SQLite's
`LOWER` applies). -/
def istartswith (hay q : String) : Bool :=
  charsStartWith (hay.data.map Char.toLower) (q.data.map Char.toLower)

/-- `IngredientViewSet.get_queryset` over
`Ingredient.Meta.ordering = ['name']`: the name-ordered ingredient
table, filtered with `name__istartswith` when the `name` query
parameter is present and non-empty (`if name:` is false both for an
absent and for an empty parameter). -/
def ingredient_queryset (s : State) (nameParam : Option String) : List IngredientRow :=
  let base := List.insertionSort (fun a b : IngredientRow => strLe a.name b.name = true) s.ingredients
  match nameParam with
  | none => base
  | some n => if n = "" then base else base.filter (fun i => istartswith i.name n)

/-- The recipe list/retrieve query parameters read by
`RecipeViewSet.get_queryset`. -/
structure RecipeParams where
  tags : List String
  author : Option Nat
  is_favorited : Option String
  is_in_shopping_cart : Option String
deriving DecidableEq, Repr

/-- The tag ids of `r` whose `Tag` row carries one of the requested
slugs: the join rows `filter(tags__slug__in=tags)` produces for `r`. -/
def tagMatches (s : State) (r : RecipeRow) (slugs : List String) : List Nat :=
  r.tags.filter (fun t => s.tags.any (fun tr => tr.id == t && slugs.contains tr.slug))

/-- `bool(int(v))` with `ValueError` mapped to `False`, as in
`RecipeViewSet.get_queryset`. -/
def boolParam (v : String) : Bool :=
  match v.toInt? with
  | some n => n != 0
  | none => false

/-- `RecipeViewSet.get_queryset` over `Recipe.Meta.ordering = ['-pub_date']`:
the tag filter joins one row per (recipe, matching tag) pair and
`.distinct()` collapses them to one row per recipe; the author and
favourite/shopping-cart membership filters narrow further; the result
is ordered by descending publication date. -/
def recipe_queryset (s : State) (user : Option Nat) (ps : RecipeParams) : List RecipeRow :=
  let q0 :=
    if ps.tags.isEmpty then s.recipes
    else dedupBy RecipeRow.id
      (s.recipes.flatMap (fun r => (tagMatches s r ps.tags).map (fun _ => r)))
  let q1 := match ps.author with
    | none => q0
    | some a => q0.filter (fun r => r.author == a)
  let q2 := match user, ps.is_favorited with
    | some u, some v =>
      let favIds := (s.favorites.filter (fun p => p.1 == u)).map Prod.snd
      if boolParam v then q1.filter (fun r => favIds.contains r.id)
      else q1.filter (fun r => !favIds.contains r.id)
    | _, _ => q1
  let q3 := match user, ps.is_in_shopping_cart with
    | some u, some v =>
      let cartIds := (s.shoppingCarts.filter (fun p => p.1 == u)).map Prod.snd
      if boolParam v then q2.filter (fun r => cartIds.contains r.id)
      else q2.filter (fun r => !cartIds.contains r.id)
    | _, _ => q2
  List.insertionSort (fun a b : RecipeRow => b.pub_date ≤ a.pub_date) q3

/-- GET `/ingredients/` under `AllowAny`: always 200. -/
def ingredientList (s : State) (user : Option Nat) (nameParam : Option String) :
    Nat × List IngredientRow :=
  (200, ingredient_queryset s nameParam)

/-- GET `/recipes/`: `IsAuthorOrReadOnly` inherits the default
`has_permission` (always true), so listing succeeds for everyone. -/
def recipeList (s : State) (user : Option Nat) (ps : RecipeParams) :
    Nat × List RecipeRow :=
  (200, recipe_queryset s user ps)

/-- GET `/recipes/{pk}/`: `get_object` yields 404 for an unknown id and
otherwise runs `IsAuthorOrReadOnly.has_object_permission` with a safe
method. -/
def recipeRetrieve (s : State) (user : Option Nat) (pk : Nat) :
    Nat × Option RecipeRow :=
  match s.recipes.find? (fun r => r.id == pk) with
  | none => (404, none)
  | some r =>
    if has_object_permission Method.get user r.author then (200, some r)
    else (403, none)

/-- The `(ingredient__name, ingredient__measurement_unit)` pair behind a
`RecipeIngredient` row's foreign key. -/
def ingKey (s : State) (iid : Nat) : String × String :=
  match s.ingredients.find? (fun i => i.id == iid) with
  | some i => (i.name, i.measurement_unit)
  | none => ("", "")

/-- The recipe ids in `u`'s shopping cart
(`cart_items.values_list('recipe', flat=True)`). -/
def cartRecipeIds (s : State) (u : Nat) : List Nat :=
  (s.shoppingCarts.filter (fun p => p.1 == u)).map Prod.snd

/-- The `RecipeIngredient` rows of the recipes in `u`'s shopping cart
(`RecipeIngredient.objects.filter(recipe__in=...)`). -/
def cartRIRows (s : State) (u : Nat) : List RIRow :=
  s.recipeIngredients.filter (fun ri => (cartRecipeIds s u).contains ri.recipe)

/-- The grouped aggregation inside `download_shopping_cart`:
`.values('ingredient__name', 'ingredient__measurement_unit')
.annotate(total=Sum('amount')).order_by('ingredient__name')` — one
entry per distinct (name, unit) key among the cart's rows, carrying the
summed amount, ordered by ingredient name. -/
def cartAgg (s : State) (u : Nat) : List ((String × String) × Int) :=
  let rows := cartRIRows s u
  let keys := (dedupBy (fun ri => ingKey s ri.ingredient) rows).map
    (fun ri => ingKey s ri.ingredient)
  let sorted := List.insertionSort (fun a b : String × String => strLe a.1 b.1 = true) keys
  sorted.map (fun k =>
    (k, ((rows.filter (fun ri => ingKey s ri.ingredient == k)).map RIRow.amount).sum))

/-- One line of the downloaded list: `f'{name} ({unit}) — {amount}'`. -/
def renderLine (e : (String × String) × Int) : String :=
  e.1.1 ++ " (" ++ e.1.2 ++ ") — " ++ toString e.2

/-- GET `/recipes/download_shopping_cart/`
(`RecipeViewSet.download_shopping_cart`): 401 for anonymous users
(`IsAuthenticated`), 400 when the cart is empty, otherwise 200 with the
rendered aggregation lines. -/
def download_shopping_cart (s : State) (user : Option Nat) : Nat × List String :=
  match user with
  | none => (401, [])
  | some u =>
    if (s.shoppingCarts.filter (fun p => p.1 == u)).isEmpty then (400, [])
    else (200, (cartAgg s u).map renderLine)

example :
    List.insertionSort (fun a b : String => strLe a b = true) ["b", "a", "c"]
      = ["a", "b", "c"] := by
  decide

example :
    download_shopping_cart
      { State.empty with
          users := [1],
          ingredients := [⟨1, "salt", "g"⟩, ⟨2, "flour", "g"⟩],
          recipes := [⟨1, 1, "r1", "", [], 5, 0⟩, ⟨2, 1, "r2", "", [], 5, 1⟩],
          recipeIngredients := [⟨1, 1, 3⟩, ⟨1, 2, 100⟩, ⟨2, 1, 4⟩],
          shoppingCarts := [(1, 1), (1, 2)] }
      (some 1)
    = (200, ["flour (g) — 100", "salt (g) — 7"]) := by decide

theorem charsLe_total : ∀ as bs : List Char, charsLe as bs = true ∨ charsLe bs as = true := by
  intro as
  induction as with
  | nil => intro bs; exact Or.inl rfl
  | cons a as ih =>
    intro bs
    cases bs with
    | nil => exact Or.inr rfl
    | cons b bs =>
      simp only [charsLe]
      rcases Nat.lt_trichotomy a.toNat b.toNat with h | h | h
      · left
        rw [if_neg (Nat.ne_of_lt h)]
        exact decide_eq_true h
      · simpa [h] using ih bs
      · right
        rw [if_neg (Nat.ne_of_lt h)]
        exact decide_eq_true h

theorem charsLe_trans : ∀ as bs cs : List Char,
    charsLe as bs = true → charsLe bs cs = true → charsLe as cs = true := by
  intro as
  induction as with
  | nil => intro bs cs h1 h2; rfl
  | cons a as ih =>
    intro bs cs h1 h2
    cases bs with
    | nil => exact absurd h1 (by simp [charsLe])
    | cons b bs =>
      cases cs with
      | nil => exact absurd h2 (by simp [charsLe])
      | cons c cs =>
        simp only [charsLe] at h1 h2 ⊢
        by_cases hab : a.toNat = b.toNat
        · rw [if_pos hab] at h1
          by_cases hbc : b.toNat = c.toNat
          · rw [if_pos hbc] at h2
            rw [if_pos (hab.trans hbc)]
            exact ih bs cs h1 h2
          · rw [if_neg hbc] at h2
            have h2' := of_decide_eq_true h2
            rw [if_neg (by omega : ¬ a.toNat = c.toNat)]
            exact decide_eq_true (by omega)
        · rw [if_neg hab] at h1
          have h1' := of_decide_eq_true h1
          by_cases hbc : b.toNat = c.toNat
          · rw [if_pos hbc] at h2
            rw [if_neg (by omega : ¬ a.toNat = c.toNat)]
            exact decide_eq_true (by omega)
          · rw [if_neg hbc] at h2
            have h2' := of_decide_eq_true h2
            rw [if_neg (by omega : ¬ a.toNat = c.toNat)]
            exact decide_eq_true (by omega)

theorem strLe_total (a b : String) : strLe a b = true ∨ strLe b a = true :=
  charsLe_total a.data b.data

theorem strLe_trans {a b c : String} (h1 : strLe a b = true) (h2 : strLe b c = true) :
    strLe a c = true :=
  charsLe_trans a.data b.data c.data h1 h2

instance : IsTotal IngredientRow (fun a b => strLe a.name b.name = true) :=
  ⟨fun a b => strLe_total a.name b.name⟩

instance : IsTrans IngredientRow (fun a b => strLe a.name b.name = true) :=
  ⟨fun _ _ _ => strLe_trans⟩

instance : IsTotal (String × String) (fun a b => strLe a.1 b.1 = true) :=
  ⟨fun a b => strLe_total a.1 b.1⟩

instance : IsTrans (String × String) (fun a b => strLe a.1 b.1 = true) :=
  ⟨fun _ _ _ => strLe_trans⟩

instance : IsTotal RecipeRow (fun a b => b.pub_date ≤ a.pub_date) :=
  ⟨fun a b => Nat.le_total b.pub_date a.pub_date⟩

instance : IsTrans RecipeRow (fun a b => b.pub_date ≤ a.pub_date) :=
  ⟨fun _ _ _ h1 h2 => Nat.le_trans h2 h1⟩

theorem mem_of_mem_dedupBy {α β : Type} [DecidableEq β] (key : α → β) :
    ∀ {l : List α} {a : α}, a ∈ dedupBy key l → a ∈ l := by
  intro l
  induction l with
  | nil => intro a h; exact absurd h (by simp [dedupBy])
  | cons x xs ih =>
    intro a h
    simp only [dedupBy, List.mem_cons] at h
    rcases h with h | h
    · exact h ▸ List.mem_cons_self x xs
    · exact List.mem_cons_of_mem x (ih (List.mem_of_mem_filter h))

theorem mem_map_dedupBy {α β : Type} [DecidableEq β] (key : α → β) :
    ∀ (l : List α) (x : β), x ∈ (dedupBy key l).map key ↔ x ∈ l.map key := by
  intro l
  induction l with
  | nil => intro x; simp [dedupBy]
  | cons a as ih =>
    intro x
    simp only [dedupBy, List.map_cons, List.mem_cons]
    constructor
    · rintro (h | h)
      · exact Or.inl h
      · right
        rw [← ih x]
        obtain ⟨b, hb, rfl⟩ := List.mem_map.1 h
        exact List.mem_map_of_mem key (List.mem_of_mem_filter hb)
    · rintro (h | h)
      · exact Or.inl h
      · by_cases hx : x = key a
        · exact Or.inl hx
        · right
          rw [← ih x] at h
          obtain ⟨b, hb, rfl⟩ := List.mem_map.1 h
          refine List.mem_map_of_mem key (List.mem_filter.2 ⟨hb, ?_⟩)
          simpa [bne_iff_ne] using hx

theorem nodup_map_dedupBy {α β : Type} [DecidableEq β] (key : α → β) :
    ∀ l : List α, ((dedupBy key l).map key).Nodup := by
  intro l
  induction l with
  | nil => simp [dedupBy]
  | cons a as ih =>
    simp only [dedupBy, List.map_cons, List.nodup_cons]
    refine ⟨?_, ?_⟩
    · intro hmem
      obtain ⟨b, hb, hkb⟩ := List.mem_map.1 hmem
      have hne := (List.mem_filter.1 hb).2
      rw [bne_iff_ne] at hne
      exact hne hkb
    · exact ih.sublist ((List.filter_sublist _).map key)

theorem pair_any_iff (l : List (Nat × Nat)) (u v : Nat) :
    l.any (fun p => p.1 == u && p.2 == v) = true ↔ (u, v) ∈ l := by
  constructor
  · intro h
    obtain ⟨p, hp, hpe⟩ := List.any_eq_true.1 h
    simp only [Bool.and_eq_true, beq_iff_eq] at hpe
    exact (Prod.ext hpe.1 hpe.2 : p = (u, v)) ▸ hp
  · intro h
    exact List.any_eq_true.2 ⟨(u, v), h, by simp⟩

theorem pair_any_eq_false (l : List (Nat × Nat)) (u v : Nat) :
    l.any (fun p => p.1 == u && p.2 == v) = false ↔ (u, v) ∉ l := by
  rw [← Bool.not_eq_true, not_iff_not]
  exact pair_any_iff l u v

theorem pair_countP_ne_zero_iff (l : List (Nat × Nat)) (u v : Nat) :
    l.countP (fun p => p.1 == u && p.2 == v) ≠ 0 ↔ (u, v) ∈ l := by
  constructor
  · intro h
    obtain ⟨p, hp, hpe⟩ := List.countP_pos_iff.1 (Nat.pos_of_ne_zero h)
    simp only [Bool.and_eq_true, beq_iff_eq] at hpe
    exact (Prod.ext hpe.1 hpe.2 : p = (u, v)) ▸ hp
  · intro h
    have hpos : 0 < l.countP (fun p => p.1 == u && p.2 == v) :=
      List.countP_pos_iff.2 ⟨(u, v), h, by simp⟩
    omega

theorem pair_filter_of_not_mem {l : List (Nat × Nat)} {u v : Nat} (h : (u, v) ∉ l) :
    l.filter (fun p => !(p.1 == u && p.2 == v)) = l := by
  apply List.filter_eq_self.2
  intro p hp
  cases p with
  | mk x y =>
    by_cases hx : x = u
    · by_cases hy : y = v
      · exact absurd (hx ▸ hy ▸ hp) h
      · simp [hy]
    · simp [hx]

/-- The database used to refute C3 as stated: user 1 exists and no
subscription row `(1, 1)` exists, yet the subscription request returns
400 and creates no row, where the claim promises 201 and a created row. -/
def c3State : State := { State.empty with users := [1] }

/-- C3 counterexample: a self-subscription request with no existing
`(user, author)` row is answered with 400 and leaves the state
unchanged — not with 201 and a created row as the claim states. -/
theorem c3_self_subscription_refutes :
    (1, 1) ∉ c3State.subscriptions ∧
    subscriptionCreate c3State (some 1) (some 1) = (400, c3State) := by
  decide

/-- C3 (amended): for an existing recipe and an existing author *distinct
from the requester*, adding to favourites / the shopping cart /
subscriptions when the relation row exists answers 400 and leaves the
state unchanged, and when the row does not exist creates exactly that
row and answers 201. -/
theorem c3_toggle_create (s : State) (u pk a : Nat)
    (hr : s.recipes.any (fun r => r.id == pk) = true)
    (ha : s.users.contains a = true) (hau : a ≠ u) :
    ((u, pk) ∈ s.favorites → favorite s (some u) pk = (400, s)) ∧
    ((u, pk) ∉ s.favorites →
      favorite s (some u) pk = (201, { s with favorites := s.favorites ++ [(u, pk)] })) ∧
    ((u, pk) ∈ s.shoppingCarts → shopping_cart s (some u) pk = (400, s)) ∧
    ((u, pk) ∉ s.shoppingCarts →
      shopping_cart s (some u) pk
        = (201, { s with shoppingCarts := s.shoppingCarts ++ [(u, pk)] })) ∧
    ((u, a) ∈ s.subscriptions → subscriptionCreate s (some u) (some a) = (400, s)) ∧
    ((u, a) ∉ s.subscriptions →
      subscriptionCreate s (some u) (some a)
        = (201, { s with subscriptions := s.subscriptions ++ [(u, a)] })) := by
  refine ⟨?_, ?_, ?_, ?_, ?_, ?_⟩
  · intro h
    simp only [favorite]
    rw [if_pos hr, if_pos ((pair_any_iff _ _ _).2 h)]
  · intro h
    simp only [favorite]
    rw [if_pos hr, if_neg]
    rw [pair_any_iff]
    exact h
  · intro h
    simp only [shopping_cart]
    rw [if_pos hr, if_pos ((pair_any_iff _ _ _).2 h)]
  · intro h
    simp only [shopping_cart]
    rw [if_pos hr, if_neg]
    rw [pair_any_iff]
    exact h
  · intro h
    simp only [subscriptionCreate]
    rw [if_pos ha, if_neg (by simpa using hau), if_pos ((pair_any_iff _ _ _).2 h)]
  · intro h
    simp only [subscriptionCreate]
    rw [if_pos ha, if_neg (by simpa using hau), if_neg]
    rw [pair_any_iff]
    exact h

/-- A database with users 1, 2 and a recipe authored by 2, used to
exercise `c3_toggle_create` at a concrete input. -/
def c3WitnessState : State :=
  { State.empty with users := [1, 2], recipes := [⟨1, 2, "r", "", [], 5, 0⟩] }

theorem c3_toggle_create_witness :
    favorite c3WitnessState (some 1) 1
      = (201, { c3WitnessState with favorites := c3WitnessState.favorites ++ [(1, 1)] }) ∧
    subscriptionCreate c3WitnessState (some 1) (some 2)
      = (201, { c3WitnessState with subscriptions := c3WitnessState.subscriptions ++ [(1, 2)] }) :=
  ⟨(c3_toggle_create c3WitnessState 1 1 2 (by decide) (by decide) (by decide)).2.1 (by decide),
   (c3_toggle_create c3WitnessState 1 1 2 (by decide) (by decide) (by decide)).2.2.2.2.2
     (by decide)⟩

theorem countP_not_add_countP (p : α → Bool) (l : List α) :
    l.countP (fun a => !p a) + l.countP p = l.length := by
  induction l with
  | nil => rfl
  | cons a l ih =>
    cases hpa : p a with
    | false =>
      simp [List.countP_cons, hpa]
      omega
    | true =>
      simp [List.countP_cons, hpa]
      omega

theorem favorite_not_mem_eq {s : State} {u pk : Nat}
    (hr : s.recipes.any (fun r => r.id == pk) = true) (h : (u, pk) ∉ s.favorites) :
    favorite s (some u) pk = (201, { s with favorites := s.favorites ++ [(u, pk)] }) := by
  simp only [favorite]
  rw [if_pos hr, if_neg]
  rw [pair_any_iff]
  exact h

theorem delete_favorite_mem_eq {s : State} {u pk : Nat}
    (hr : s.recipes.any (fun r => r.id == pk) = true) (h : (u, pk) ∈ s.favorites) :
    delete_favorite s (some u) pk
      = (204, { s with favorites := s.favorites.filter (fun p => !(p.1 == u && p.2 == pk)) }) := by
  simp only [delete_favorite]
  rw [if_pos hr, if_pos ((pair_countP_ne_zero_iff _ _ _).2 h)]

theorem shopping_cart_not_mem_eq {s : State} {u pk : Nat}
    (hr : s.recipes.any (fun r => r.id == pk) = true) (h : (u, pk) ∉ s.shoppingCarts) :
    shopping_cart s (some u) pk
      = (201, { s with shoppingCarts := s.shoppingCarts ++ [(u, pk)] }) := by
  simp only [shopping_cart]
  rw [if_pos hr, if_neg]
  rw [pair_any_iff]
  exact h

theorem delete_shopping_cart_mem_eq {s : State} {u pk : Nat}
    (hr : s.recipes.any (fun r => r.id == pk) = true) (h : (u, pk) ∈ s.shoppingCarts) :
    delete_shopping_cart s (some u) pk
      = (204, { s with shoppingCarts :=
          s.shoppingCarts.filter (fun p => !(p.1 == u && p.2 == pk)) }) := by
  simp only [delete_shopping_cart]
  rw [if_pos hr, if_pos ((pair_countP_ne_zero_iff _ _ _).2 h)]

/-- C6 counterexample state: recipe 1 is already in user 1's favourites. -/
def c6State : State :=
  { State.empty with
    users := [1], recipes := [⟨1, 1, "r", "", [], 5, 0⟩],
    favorites := [(1, 1)], shoppingCarts := [(1, 1)] }

/-- C6 counterexample: when the recipe is already favourited, the
favourite-then-delete sequence does *not* return the `Favorite` relation
to its original state: the add is a 400 no-op and the delete removes the
pre-existing row. -/
theorem c6_roundtrip_refutes :
    (delete_favorite (favorite c6State (some 1) 1).2 (some 1) 1).2 ≠ c6State := by
  decide

/-- C6 (amended): when the recipe is *not* currently in the relation,
favouriting and then deleting the favourite is the identity on the
state, and deleting a favourite that does not exist answers 400 and
changes nothing; both statements hold equally for the shopping cart. -/
theorem c6_toggle_roundtrip (s : State) (u pk : Nat)
    (hr : s.recipes.any (fun r => r.id == pk) = true) :
    ((u, pk) ∉ s.favorites →
      (delete_favorite (favorite s (some u) pk).2 (some u) pk).2 = s ∧
      delete_favorite s (some u) pk = (400, s)) ∧
    ((u, pk) ∉ s.shoppingCarts →
      (delete_shopping_cart (shopping_cart s (some u) pk).2 (some u) pk).2 = s ∧
      delete_shopping_cart s (some u) pk = (400, s)) := by
  refine ⟨fun h => ⟨?_, ?_⟩, fun h => ⟨?_, ?_⟩⟩
  · rw [favorite_not_mem_eq hr h]
    rw [delete_favorite_mem_eq (s := { s with favorites := s.favorites ++ [(u, pk)] }) hr
      (List.mem_append_right _ (List.mem_singleton.2 rfl))]
    show ({ s with favorites :=
      (s.favorites ++ [(u, pk)]).filter (fun p => !(p.1 == u && p.2 == pk)) } : State) = s
    rw [List.filter_append, pair_filter_of_not_mem h]
    simp
  · simp only [delete_favorite]
    rw [if_pos hr, if_neg (fun hc => h ((pair_countP_ne_zero_iff _ _ _).1 hc))]
  · rw [shopping_cart_not_mem_eq hr h]
    rw [delete_shopping_cart_mem_eq (s := { s with shoppingCarts := s.shoppingCarts ++ [(u, pk)] }) hr
      (List.mem_append_right _ (List.mem_singleton.2 rfl))]
    show ({ s with shoppingCarts :=
      (s.shoppingCarts ++ [(u, pk)]).filter (fun p => !(p.1 == u && p.2 == pk)) } : State) = s
    rw [List.filter_append, pair_filter_of_not_mem h]
    simp
  · simp only [delete_shopping_cart]
    rw [if_pos hr, if_neg (fun hc => h ((pair_countP_ne_zero_iff _ _ _).1 hc))]

/-- A database with one user and one recipe, nothing favourited yet. -/
def c6WitnessState : State :=
  { State.empty with users := [1], recipes := [⟨1, 1, "r", "", [], 5, 0⟩] }

theorem c6_toggle_roundtrip_witness :
    (delete_favorite (favorite c6WitnessState (some 1) 1).2 (some 1) 1).2 = c6WitnessState ∧
    delete_favorite c6WitnessState (some 1) 1 = (400, c6WitnessState) :=
  (c6_toggle_roundtrip c6WitnessState 1 1 (by decide)).1 (by decide)

theorem countP_pair_eq_one_of_nodup {l : List (Nat × Nat)} {u v : Nat}
    (hnd : l.Nodup) (hm : (u, v) ∈ l) :
    l.countP (fun p => p.1 == u && p.2 == v) = 1 := by
  induction l with
  | nil => cases hm
  | cons x xs ih =>
    rw [List.countP_cons]
    rcases List.mem_cons.1 hm with rfl | hm'
    · have hzero : xs.countP (fun p => p.1 == u && p.2 == v) = 0 := by
        rw [List.countP_eq_zero]
        intro p hp hpe
        simp only [Bool.and_eq_true, beq_iff_eq] at hpe
        exact (List.nodup_cons.1 hnd).1 ((Prod.ext hpe.1 hpe.2 : p = (u, v)) ▸ hp)
      simp [hzero]
    · have hxne : x ≠ (u, v) := by
        rintro rfl
        exact (List.nodup_cons.1 hnd).1 hm'
      have hxp : (x.1 == u && x.2 == v) = false := by
        cases x with
        | mk c d =>
          by_cases hc : c = u
          · by_cases hd : d = v
            · exact absurd (by rw [hc, hd]) hxne
            · simp [hd]
          · simp [hc]
      rw [hxp]
      simp [ih (List.nodup_cons.1 hnd).2 hm']

/-- C7: subscription create and delete for an author id matching no user
answer 404 and leave the state unchanged; deleting an existing
subscription answers 204 and removes exactly that one row; deleting when
no subscription exists answers 400 and changes nothing. -/
theorem c7_subscription_lifecycle (s : State) (u a : Nat) :
    (s.users.contains a = false →
      subscriptionCreate s (some u) (some a) = (404, s) ∧
      subscriptionDestroy s (some u) (some a) = (404, s)) ∧
    (s.users.contains a = true → (u, a) ∈ s.subscriptions → s.subscriptions.Nodup →
      (subscriptionDestroy s (some u) (some a)).1 = 204 ∧
      (subscriptionDestroy s (some u) (some a)).2
        = { s with subscriptions :=
            s.subscriptions.filter (fun p => !(p.1 == u && p.2 == a)) } ∧
      (subscriptionDestroy s (some u) (some a)).2.subscriptions.length + 1
        = s.subscriptions.length ∧
      (u, a) ∉ (subscriptionDestroy s (some u) (some a)).2.subscriptions ∧
      (∀ p : Nat × Nat, p ≠ (u, a) →
        (p ∈ (subscriptionDestroy s (some u) (some a)).2.subscriptions ↔
          p ∈ s.subscriptions))) ∧
    (s.users.contains a = true → (u, a) ∉ s.subscriptions →
      subscriptionDestroy s (some u) (some a) = (400, s)) := by
  refine ⟨fun hna => ⟨?_, ?_⟩, fun ha hm hnd => ?_, fun ha hm => ?_⟩
  · simp only [subscriptionCreate]
    rw [if_neg (by rw [hna]; exact Bool.false_ne_true)]
  · simp only [subscriptionDestroy]
    rw [if_neg (by rw [hna]; exact Bool.false_ne_true)]
  · have hdes : subscriptionDestroy s (some u) (some a)
        = (204, { s with subscriptions :=
            s.subscriptions.filter (fun p => !(p.1 == u && p.2 == a)) }) := by
      simp only [subscriptionDestroy]
      rw [if_pos ha, if_pos ((pair_countP_ne_zero_iff _ _ _).2 hm)]
    rw [hdes]
    have hcp : s.subscriptions.countP (fun p => p.1 == u && p.2 == a) = 1 :=
      countP_pair_eq_one_of_nodup hnd hm
    refine ⟨rfl, rfl, ?_, ?_, ?_⟩
    · show (s.subscriptions.filter (fun p => !(p.1 == u && p.2 == a))).length + 1
        = s.subscriptions.length
      rw [← List.countP_eq_length_filter]
      rw [← countP_not_add_countP (fun p => p.1 == u && p.2 == a) s.subscriptions, hcp]
    · intro hmem
      have := (List.mem_filter.1 hmem).2
      simp at this
    · intro p hp
      show p ∈ s.subscriptions.filter (fun q => !(q.1 == u && q.2 == a))
        ↔ p ∈ s.subscriptions
      rw [List.mem_filter]
      constructor
      · exact fun h => h.1
      · intro h
        refine ⟨h, ?_⟩
        cases p with
        | mk x y =>
          by_cases hx : x = u
          · by_cases hy : y = a
            · exact absurd (Prod.ext hx hy) hp
            · simp [hy]
          · simp [hx]
  · simp only [subscriptionDestroy]
    rw [if_pos ha, if_neg (fun hc => hm ((pair_countP_ne_zero_iff _ _ _).1 hc))]

/-- A database with users 1, 2, 3 where user 1 subscribes to user 2. -/
def c7State : State :=
  { State.empty with users := [1, 2, 3], subscriptions := [(1, 2)] }

theorem c7_subscription_lifecycle_witness :
    subscriptionCreate c7State (some 1) (some 9) = (404, c7State) ∧
    (subscriptionDestroy c7State (some 1) (some 2)).1 = 204 ∧
    subscriptionDestroy c7State (some 1) (some 3) = (400, c7State) :=
  ⟨((c7_subscription_lifecycle c7State 1 9).1 (by decide)).1,
   ((c7_subscription_lifecycle c7State 1 2).2.1 (by decide) (by decide) (by decide)).1,
   (c7_subscription_lifecycle c7State 1 3).2.2 (by decide) (by decide)⟩

/-- The `unique_together` key of a `RecipeIngredient` row
(`recipes/models.py`, `RecipeIngredient.Meta.unique_together`). -/
def riKey (ri : RIRow) : Nat × Nat :=
  (ri.recipe, ri.ingredient)

/-- One request against the system: the API endpoints modelled above,
plus direct seeding of the base tables (djoser user registration; the
admin site and the `load_test_data` command for tags, ingredients and
recipes), each seeding insert guarded by the primary-key and
`unique_together` constraints the database schema enforces.  The
`Favorite`, `ShoppingCart` and `Subscription` relation tables are
written only through the API endpoints. -/
inductive Request where
  | seedUser (uid : Nat)
  | seedTag (t : TagRow)
  | seedIngredient (i : IngredientRow)
  | seedRecipe (r : RecipeRow) (ris : List RIRow)
  | favAdd (user : Option Nat) (pk : Nat)
  | favDel (user : Option Nat) (pk : Nat)
  | cartAdd (user : Option Nat) (pk : Nat)
  | cartDel (user : Option Nat) (pk : Nat)
  | subAdd (user : Option Nat) (authorId : Option Nat)
  | subDel (user : Option Nat) (authorId : Option Nat)
  | rCreate (user : Option Nat) (inp : RecipeInput) (pubDate : Nat)
  | rUpdate (user : Option Nat) (pk : Nat) (inp : RecipeInput)
  | rDestroy (user : Option Nat) (pk : Nat)

/-- The successor state of one request. -/
def step (s : State) : Request → State
  | .seedUser uid =>
    if s.users.contains uid then s else { s with users := s.users ++ [uid] }
  | .seedTag t =>
    if s.tags.any (fun q => q.id == t.id) then s
    else { s with tags := s.tags ++ [t] }
  | .seedIngredient i =>
    if s.ingredients.any (fun q => q.id == i.id) then s
    else { s with ingredients := s.ingredients ++ [i] }
  | .seedRecipe r ris =>
    if s.recipes.any (fun q => q.id == r.id) then s
    else if (ris.map riKey).Nodup ∧ ∀ ri ∈ ris, riKey ri ∉ s.recipeIngredients.map riKey then
      { s with recipes := s.recipes ++ [r],
               recipeIngredients := s.recipeIngredients ++ ris }
    else s
  | .favAdd user pk => (favorite s user pk).2
  | .favDel user pk => (delete_favorite s user pk).2
  | .cartAdd user pk => (shopping_cart s user pk).2
  | .cartDel user pk => (delete_shopping_cart s user pk).2
  | .subAdd user authorId => (subscriptionCreate s user authorId).2
  | .subDel user authorId => (subscriptionDestroy s user authorId).2
  | .rCreate user inp pubDate => (recipeCreate s user inp pubDate).2
  | .rUpdate user pk inp => (recipeUpdate s user pk inp).2
  | .rDestroy user pk => (recipeDestroy s user pk).2

/-- States reachable from the fresh deployment by a sequence of
requests. -/
inductive Reachable : State → Prop where
  | init : Reachable State.empty
  | next {s : State} (req : Request) : Reachable s → Reachable (step s req)

/-- The `unique_together` constraints of the schema
(`recipes/models.py`): at most one `Favorite` and one `ShoppingCart`
row per (user, recipe), at most one `Subscription` row per
(user, author), at most one `RecipeIngredient` row per
(recipe, ingredient). -/
def UniqueTogether (s : State) : Prop :=
  s.favorites.Nodup ∧ s.shoppingCarts.Nodup ∧ s.subscriptions.Nodup ∧
  (s.recipeIngredients.map riKey).Nodup

/-- No user is subscribed to themselves. -/
def NoSelfSub (s : State) : Prop :=
  ∀ p ∈ s.subscriptions, p.1 ≠ p.2

theorem favorite_snd_cases (s : State) (user : Option Nat) (pk : Nat) :
    (favorite s user pk).2 = s ∨
    ∃ u, user = some u ∧ (u, pk) ∉ s.favorites ∧
      (favorite s user pk).2 = { s with favorites := s.favorites ++ [(u, pk)] } := by
  cases user with
  | none => exact Or.inl rfl
  | some u =>
    simp only [favorite]
    by_cases hr : s.recipes.any (fun r => r.id == pk) = true
    · rw [if_pos hr]
      by_cases hm : s.favorites.any (fun p => p.1 == u && p.2 == pk) = true
      · rw [if_pos hm]
        exact Or.inl rfl
      · rw [if_neg hm]
        exact Or.inr ⟨u, rfl, (pair_any_eq_false _ _ _).1 ((Bool.not_eq_true _) ▸ hm), rfl⟩
    · rw [if_neg hr]
      exact Or.inl rfl

theorem delete_favorite_snd_cases (s : State) (user : Option Nat) (pk : Nat) :
    (delete_favorite s user pk).2 = s ∨
    ∃ u, user = some u ∧
      (delete_favorite s user pk).2
        = { s with favorites := s.favorites.filter (fun p => !(p.1 == u && p.2 == pk)) } := by
  cases user with
  | none => exact Or.inl rfl
  | some u =>
    simp only [delete_favorite]
    by_cases hr : s.recipes.any (fun r => r.id == pk) = true
    · rw [if_pos hr]
      by_cases hcnt : s.favorites.countP (fun p => p.1 == u && p.2 == pk) ≠ 0
      · rw [if_pos hcnt]
        exact Or.inr ⟨u, rfl, rfl⟩
      · rw [if_neg hcnt]
        exact Or.inl rfl
    · rw [if_neg hr]
      exact Or.inl rfl

theorem shopping_cart_snd_cases (s : State) (user : Option Nat) (pk : Nat) :
    (shopping_cart s user pk).2 = s ∨
    ∃ u, user = some u ∧ (u, pk) ∉ s.shoppingCarts ∧
      (shopping_cart s user pk).2
        = { s with shoppingCarts := s.shoppingCarts ++ [(u, pk)] } := by
  cases user with
  | none => exact Or.inl rfl
  | some u =>
    simp only [shopping_cart]
    by_cases hr : s.recipes.any (fun r => r.id == pk) = true
    · rw [if_pos hr]
      by_cases hm : s.shoppingCarts.any (fun p => p.1 == u && p.2 == pk) = true
      · rw [if_pos hm]
        exact Or.inl rfl
      · rw [if_neg hm]
        exact Or.inr ⟨u, rfl, (pair_any_eq_false _ _ _).1 ((Bool.not_eq_true _) ▸ hm), rfl⟩
    · rw [if_neg hr]
      exact Or.inl rfl

theorem delete_shopping_cart_snd_cases (s : State) (user : Option Nat) (pk : Nat) :
    (delete_shopping_cart s user pk).2 = s ∨
    ∃ u, user = some u ∧
      (delete_shopping_cart s user pk).2
        = { s with shoppingCarts :=
            s.shoppingCarts.filter (fun p => !(p.1 == u && p.2 == pk)) } := by
  cases user with
  | none => exact Or.inl rfl
  | some u =>
    simp only [delete_shopping_cart]
    by_cases hr : s.recipes.any (fun r => r.id == pk) = true
    · rw [if_pos hr]
      by_cases hcnt : s.shoppingCarts.countP (fun p => p.1 == u && p.2 == pk) ≠ 0
      · rw [if_pos hcnt]
        exact Or.inr ⟨u, rfl, rfl⟩
      · rw [if_neg hcnt]
        exact Or.inl rfl
    · rw [if_neg hr]
      exact Or.inl rfl

theorem subscriptionCreate_snd_cases (s : State) (user authorId : Option Nat) :
    (subscriptionCreate s user authorId).2 = s ∨
    ∃ u a, user = some u ∧ authorId = some a ∧ a ≠ u ∧ (u, a) ∉ s.subscriptions ∧
      (subscriptionCreate s user authorId).2
        = { s with subscriptions := s.subscriptions ++ [(u, a)] } := by
  cases user with
  | none => exact Or.inl rfl
  | some u =>
    cases authorId with
    | none => exact Or.inl rfl
    | some a =>
      simp only [subscriptionCreate]
      by_cases hu : s.users.contains a = true
      · rw [if_pos hu]
        by_cases hau : (a == u) = true
        · rw [if_pos hau]
          exact Or.inl rfl
        · rw [if_neg hau]
          by_cases hm : s.subscriptions.any (fun p => p.1 == u && p.2 == a) = true
          · rw [if_pos hm]
            exact Or.inl rfl
          · rw [if_neg hm]
            refine Or.inr ⟨u, a, rfl, rfl, ?_, ?_, rfl⟩
            · exact fun he => hau (beq_iff_eq.2 he)
            · exact (pair_any_eq_false _ _ _).1 ((Bool.not_eq_true _) ▸ hm)
      · rw [if_neg hu]
        exact Or.inl rfl

theorem subscriptionDestroy_snd_cases (s : State) (user authorId : Option Nat) :
    (subscriptionDestroy s user authorId).2 = s ∨
    ∃ u a, user = some u ∧ authorId = some a ∧
      (subscriptionDestroy s user authorId).2
        = { s with subscriptions :=
            s.subscriptions.filter (fun p => !(p.1 == u && p.2 == a)) } := by
  cases user with
  | none => exact Or.inl rfl
  | some u =>
    cases authorId with
    | none => exact Or.inl rfl
    | some a =>
      simp only [subscriptionDestroy]
      by_cases hu : s.users.contains a = true
      · rw [if_pos hu]
        by_cases hcnt : s.subscriptions.countP (fun p => p.1 == u && p.2 == a) ≠ 0
        · rw [if_pos hcnt]
          exact Or.inr ⟨u, a, rfl, rfl, rfl⟩
        · rw [if_neg hcnt]
          exact Or.inl rfl
      · rw [if_neg hu]
        exact Or.inl rfl

/-- On the `perform_create` path the duplicate `author` keyword argument
raises `TypeError` before any write, and validation failures answer 400,
so POST `/recipes/` never changes the database state. -/
theorem recipeCreate_snd (s : State) (user : Option Nat) (inp : RecipeInput) (d : Nat) :
    (recipeCreate s user inp d).2 = s := by
  simp only [recipeCreate]
  by_cases hv : run_validation s inp = true
  · rw [if_pos hv]
    rfl
  · rw [if_neg hv]

theorem recipeUpdate_snd_cases (s : State) (user : Option Nat) (pk : Nat) (inp : RecipeInput) :
    (recipeUpdate s user pk inp).2 = s ∨
    (run_validation s inp = true ∧
      (recipeUpdate s user pk inp).2 = { s with
        recipes := s.recipes.map (fun r =>
          if r.id == pk then
            { r with name := inp.name, text := inp.text,
                     cooking_time := inp.cooking_time, tags := inp.tags.dedup }
          else r),
        recipeIngredients :=
          s.recipeIngredients.filter (fun ri => ri.recipe != pk)
            ++ inp.ingredients.map (fun it => ⟨pk, it.id, it.amount⟩) }) := by
  simp only [recipeUpdate]
  split
  · exact Or.inl rfl
  · next r hfind =>
    by_cases hp : has_object_permission Method.patch user r.author = true
    · rw [if_pos hp]
      by_cases hv : run_validation s inp = true
      · rw [if_pos hv]
        split
        · next s' hsu =>
          refine Or.inr ⟨hv, ?_⟩
          simp only [serializer_update, save_ingredients] at hsu
          split at hsu
          · injection hsu with h
            subst h
            rfl
          · exact Except.noConfusion hsu
        · exact Or.inl rfl
      · rw [if_neg hv]
        exact Or.inl rfl
    · rw [if_neg hp]
      cases user with
      | none => exact Or.inl rfl
      | some u => exact Or.inl rfl

theorem recipeDestroy_snd_cases (s : State) (user : Option Nat) (pk : Nat) :
    (recipeDestroy s user pk).2 = s ∨
    (recipeDestroy s user pk).2 = { s with
      recipes := s.recipes.filter (fun q => q.id != pk),
      recipeIngredients := s.recipeIngredients.filter (fun ri => ri.recipe != pk),
      favorites := s.favorites.filter (fun p => p.2 != pk),
      shoppingCarts := s.shoppingCarts.filter (fun p => p.2 != pk) } := by
  simp only [recipeDestroy]
  split
  · exact Or.inl rfl
  · next r hfind =>
    by_cases hp : has_object_permission Method.delete user r.author = true
    · rw [if_pos hp]
      exact Or.inr rfl
    · rw [if_neg hp]
      cases user with
      | none => exact Or.inl rfl
      | some u => exact Or.inl rfl

theorem nodup_append_single {l : List (Nat × Nat)} {p : Nat × Nat}
    (h : l.Nodup) (hp : p ∉ l) : (l ++ [p]).Nodup := by
  rw [List.nodup_append]
  refine ⟨h, List.nodup_singleton p, ?_⟩
  intro x hx hmem
  rw [List.mem_singleton] at hmem
  exact hp (hmem ▸ hx)

theorem step_preserves_unique (s : State) (req : Request)
    (h : UniqueTogether s) : UniqueTogether (step s req) := by
  obtain ⟨hf, hc, hs, hri⟩ := h
  cases req with
  | seedUser uid =>
    simp only [step]
    split <;> exact ⟨hf, hc, hs, hri⟩
  | seedTag t =>
    simp only [step]
    split <;> exact ⟨hf, hc, hs, hri⟩
  | seedIngredient i =>
    simp only [step]
    split <;> exact ⟨hf, hc, hs, hri⟩
  | seedRecipe r ris =>
    simp only [step]
    split
    · exact ⟨hf, hc, hs, hri⟩
    · split
      · next hcond =>
        refine ⟨hf, hc, hs, ?_⟩
        rw [List.map_append, List.nodup_append]
        refine ⟨hri, hcond.1, ?_⟩
        intro k hk hknew
        obtain ⟨ri, hrimem, rfl⟩ := List.mem_map.1 hknew
        exact hcond.2 ri hrimem hk
      · exact ⟨hf, hc, hs, hri⟩
  | favAdd user pk =>
    rcases favorite_snd_cases s user pk with heq | ⟨u, _, hnm, heq⟩ <;>
      simp only [step] <;> rw [heq]
    · exact ⟨hf, hc, hs, hri⟩
    · exact ⟨nodup_append_single hf hnm, hc, hs, hri⟩
  | favDel user pk =>
    rcases delete_favorite_snd_cases s user pk with heq | ⟨u, _, heq⟩ <;>
      simp only [step] <;> rw [heq]
    · exact ⟨hf, hc, hs, hri⟩
    · exact ⟨hf.sublist (List.filter_sublist _), hc, hs, hri⟩
  | cartAdd user pk =>
    rcases shopping_cart_snd_cases s user pk with heq | ⟨u, _, hnm, heq⟩ <;>
      simp only [step] <;> rw [heq]
    · exact ⟨hf, hc, hs, hri⟩
    · exact ⟨hf, nodup_append_single hc hnm, hs, hri⟩
  | cartDel user pk =>
    rcases delete_shopping_cart_snd_cases s user pk with heq | ⟨u, _, heq⟩ <;>
      simp only [step] <;> rw [heq]
    · exact ⟨hf, hc, hs, hri⟩
    · exact ⟨hf, hc.sublist (List.filter_sublist _), hs, hri⟩
  | subAdd user authorId =>
    rcases subscriptionCreate_snd_cases s user authorId with heq | ⟨u, a, _, _, _, hnm, heq⟩ <;>
      simp only [step] <;> rw [heq]
    · exact ⟨hf, hc, hs, hri⟩
    · exact ⟨hf, hc, nodup_append_single hs hnm, hri⟩
  | subDel user authorId =>
    rcases subscriptionDestroy_snd_cases s user authorId with heq | ⟨u, a, _, _, heq⟩ <;>
      simp only [step] <;> rw [heq]
    · exact ⟨hf, hc, hs, hri⟩
    · exact ⟨hf, hc, hs.sublist (List.filter_sublist _), hri⟩
  | rCreate user inp pubDate =>
    simp only [step]
    rw [recipeCreate_snd]
    exact ⟨hf, hc, hs, hri⟩
  | rUpdate user pk inp =>
    rcases recipeUpdate_snd_cases s user pk inp with heq | ⟨hv, heq⟩ <;>
      simp only [step] <;> rw [heq]
    · exact ⟨hf, hc, hs, hri⟩
    · refine ⟨hf, hc, hs, ?_⟩
      rw [List.map_append, List.nodup_append]
      refine ⟨hri.sublist ((List.filter_sublist _).map riKey), ?_, ?_⟩
      · have hB : validate_ingredients inp.ingredients = true := by
          simp only [run_validation, Bool.and_eq_true] at hv
          exact hv.1.1.2
        have hids : (inp.ingredients.map IngredientInput.id).Nodup := by
          simp only [validate_ingredients, Bool.and_eq_true] at hB
          exact of_decide_eq_true hB.2
        rw [List.map_map]
        have hfun : (riKey ∘ fun it : IngredientInput => (⟨pk, it.id, it.amount⟩ : RIRow))
            = (fun i => ((pk, i) : Nat × Nat)) ∘ IngredientInput.id := by
          funext it
          rfl
        rw [hfun, ← List.map_map]
        exact hids.map (fun a b hab => congrArg Prod.snd hab)
      · intro k hk hknew
        obtain ⟨ri, hrimem, rfl⟩ := List.mem_map.1 hk
        have hne : ri.recipe ≠ pk := by
          have := (List.mem_filter.1 hrimem).2
          simpa [bne_iff_ne] using this
        rw [List.map_map] at hknew
        obtain ⟨it, hit, hkeq⟩ := List.mem_map.1 hknew
        exact hne (congrArg Prod.fst hkeq).symm
  | rDestroy user pk =>
    rcases recipeDestroy_snd_cases s user pk with heq | heq <;>
      simp only [step] <;> rw [heq]
    · exact ⟨hf, hc, hs, hri⟩
    · exact ⟨hf.sublist (List.filter_sublist _), hc.sublist (List.filter_sublist _),
        hs, hri.sublist ((List.filter_sublist _).map riKey)⟩

theorem step_preserves_noself (s : State) (req : Request)
    (h : NoSelfSub s) : NoSelfSub (step s req) := by
  cases req with
  | seedUser uid =>
    simp only [step]
    split <;> exact h
  | seedTag t =>
    simp only [step]
    split <;> exact h
  | seedIngredient i =>
    simp only [step]
    split <;> exact h
  | seedRecipe r ris =>
    simp only [step]
    split
    · exact h
    · split <;> exact h
  | favAdd user pk =>
    rcases favorite_snd_cases s user pk with heq | ⟨u, _, _, heq⟩ <;>
      simp only [step] <;> rw [heq] <;> exact h
  | favDel user pk =>
    rcases delete_favorite_snd_cases s user pk with heq | ⟨u, _, heq⟩ <;>
      simp only [step] <;> rw [heq] <;> exact h
  | cartAdd user pk =>
    rcases shopping_cart_snd_cases s user pk with heq | ⟨u, _, _, heq⟩ <;>
      simp only [step] <;> rw [heq] <;> exact h
  | cartDel user pk =>
    rcases delete_shopping_cart_snd_cases s user pk with heq | ⟨u, _, heq⟩ <;>
      simp only [step] <;> rw [heq] <;> exact h
  | subAdd user authorId =>
    rcases subscriptionCreate_snd_cases s user authorId with heq | ⟨u, a, _, _, hau, _, heq⟩ <;>
      simp only [step] <;> rw [heq]
    · exact h
    · intro p hp
      rcases List.mem_append.1 hp with hp | hp
      · exact h p hp
      · rw [List.mem_singleton] at hp
        subst hp
        exact fun he => hau he.symm
  | subDel user authorId =>
    rcases subscriptionDestroy_snd_cases s user authorId with heq | ⟨u, a, _, _, heq⟩ <;>
      simp only [step] <;> rw [heq]
    · exact h
    · exact fun p hp => h p (List.mem_of_mem_filter hp)
  | rCreate user inp pubDate =>
    simp only [step]
    rw [recipeCreate_snd]
    exact h
  | rUpdate user pk inp =>
    rcases recipeUpdate_snd_cases s user pk inp with heq | ⟨_, heq⟩ <;>
      simp only [step] <;> rw [heq] <;> exact h
  | rDestroy user pk =>
    rcases recipeDestroy_snd_cases s user pk with heq | heq <;>
      simp only [step] <;> rw [heq] <;> exact h

/-- C2: every request preserves the `unique_together` constraints of the
schema, and every reachable state satisfies them: at most one
`Favorite`, `ShoppingCart`, `Subscription` and `RecipeIngredient` row
per key pair. -/
theorem c2_unique_together :
    (∀ (s : State) (req : Request), UniqueTogether s → UniqueTogether (step s req)) ∧
    ∀ s : State, Reachable s → UniqueTogether s := by
  refine ⟨fun s req h => step_preserves_unique s req h, ?_⟩
  intro s hr
  induction hr with
  | init => exact ⟨List.nodup_nil, List.nodup_nil, List.nodup_nil, List.nodup_nil⟩
  | next req hr ih => exact step_preserves_unique _ req ih

/-- A small reachable state exercising `c2_unique_together`. -/
def c2WitnessReqs : List Request :=
  [Request.seedUser 1, Request.seedUser 2,
   Request.seedRecipe ⟨1, 2, "r", "", [], 5, 0⟩ [⟨1, 1, 3⟩],
   Request.favAdd (some 1) 1, Request.subAdd (some 1) (some 2)]

theorem c2_unique_together_witness :
    UniqueTogether (c2WitnessReqs.foldl step State.empty) :=
  c2_unique_together.2 _
    (Reachable.next (Request.subAdd (some 1) (some 2))
      (Reachable.next (Request.favAdd (some 1) 1)
        (Reachable.next (Request.seedRecipe ⟨1, 2, "r", "", [], 5, 0⟩ [⟨1, 1, 3⟩])
          (Reachable.next (Request.seedUser 2)
            (Reachable.next (Request.seedUser 1) Reachable.init)))))

/-- C8: a self-subscription request is rejected (400 when the user
exists, 404 otherwise) without changing the state, every request
preserves the no-self-subscription invariant, and every reachable state
satisfies it. -/
theorem c8_no_self_subscription :
    (∀ (s : State) (u : Nat),
      ((subscriptionCreate s (some u) (some u)).1 = 400 ∨
        (subscriptionCreate s (some u) (some u)).1 = 404) ∧
      (subscriptionCreate s (some u) (some u)).2 = s) ∧
    (∀ (s : State) (req : Request), NoSelfSub s → NoSelfSub (step s req)) ∧
    ∀ s : State, Reachable s → NoSelfSub s := by
  refine ⟨?_, fun s req h => step_preserves_noself s req h, ?_⟩
  · intro s u
    simp only [subscriptionCreate]
    by_cases hu : s.users.contains u = true
    · rw [if_pos hu, if_pos (beq_self_eq_true u)]
      exact ⟨Or.inl rfl, rfl⟩
    · rw [if_neg hu]
      exact ⟨Or.inr rfl, rfl⟩
  · intro s hr
    induction hr with
    | init => intro p hp; cases hp
    | next req hr ih => exact step_preserves_noself _ req ih

/-- A database with a single user 7, used as the concrete input for C8. -/
def c8State : State := { State.empty with users := [7] }

theorem c8_no_self_subscription_witness :
    (subscriptionCreate c8State (some 7) (some 7)).2 = c8State ∧
    NoSelfSub (step c8State (Request.subAdd (some 7) (some 7))) ∧
    NoSelfSub State.empty :=
  ⟨(c8_no_self_subscription.1 c8State 7).2,
   c8_no_self_subscription.2.1 c8State (Request.subAdd (some 7) (some 7))
     (by intro p hp; simp [c8State, State.empty] at hp),
   c8_no_self_subscription.2.2 State.empty Reachable.init⟩

/-- C4: the write endpoints reject anonymous requests without changing
the state — 401 from `IsAuthenticated` for the relation endpoints; for
the recipe endpoints an error status (404/401 from `get_object` and the
object permission, or 400/500 on the create path, which has no
authentication gate but always fails before writing); the read
endpoints answer 200 for anonymous users; and PATCH / DELETE on a
recipe are refused with 403 and an unchanged state for any
authenticated user other than the recipe's author. -/
theorem c4_permissions (s : State) (pk a u d : Nat) (inp : RecipeInput)
    (ps : RecipeParams) (np : Option String) (r : RecipeRow) :
    (favorite s none pk = (401, s)) ∧
    (delete_favorite s none pk = (401, s)) ∧
    (shopping_cart s none pk = (401, s)) ∧
    (delete_shopping_cart s none pk = (401, s)) ∧
    (subscriptionCreate s none (some a) = (401, s)) ∧
    (subscriptionDestroy s none (some a) = (401, s)) ∧
    (download_shopping_cart s none = (401, [])) ∧
    (400 ≤ (recipeCreate s none inp d).1 ∧ (recipeCreate s none inp d).2 = s) ∧
    (400 ≤ (recipeUpdate s none pk inp).1 ∧ (recipeUpdate s none pk inp).2 = s) ∧
    (400 ≤ (recipeDestroy s none pk).1 ∧ (recipeDestroy s none pk).2 = s) ∧
    ((ingredientList s none np).1 = 200) ∧
    ((recipeList s none ps).1 = 200) ∧
    (s.recipes.find? (fun q => q.id == pk) = some r →
      recipeRetrieve s none pk = (200, some r)) ∧
    (s.recipes.find? (fun q => q.id == pk) = some r → r.author ≠ u →
      recipeUpdate s (some u) pk inp = (403, s) ∧
      recipeDestroy s (some u) pk = (403, s)) := by
  refine ⟨rfl, rfl, rfl, rfl, rfl, rfl, rfl, ⟨?_, recipeCreate_snd s none inp d⟩,
    ⟨?_, ?_⟩, ⟨?_, ?_⟩, rfl, rfl, ?_, ?_⟩
  · simp only [recipeCreate]
    by_cases hv : run_validation s inp = true
    · rw [if_pos hv]
      exact (by decide : (400 : Nat) ≤ 500)
    · rw [if_neg hv]
  · simp only [recipeUpdate]
    split
    · exact (by decide : (400 : Nat) ≤ 404)
    · next r' hfind =>
      rw [if_neg (show ¬ has_object_permission Method.patch none r'.author = true from
        Bool.false_ne_true)]
      exact (by decide : (400 : Nat) ≤ 401)
  · simp only [recipeUpdate]
    split
    · rfl
    · next r' hfind =>
      rw [if_neg (show ¬ has_object_permission Method.patch none r'.author = true from
        Bool.false_ne_true)]
  · simp only [recipeDestroy]
    split
    · exact (by decide : (400 : Nat) ≤ 404)
    · next r' hfind =>
      rw [if_neg (show ¬ has_object_permission Method.delete none r'.author = true from
        Bool.false_ne_true)]
      exact (by decide : (400 : Nat) ≤ 401)
  · simp only [recipeDestroy]
    split
    · rfl
    · next r' hfind =>
      rw [if_neg (show ¬ has_object_permission Method.delete none r'.author = true from
        Bool.false_ne_true)]
  · intro hfind
    simp only [recipeRetrieve]
    rw [hfind]
    rfl
  · intro hfind hau
    have hne : ((some u : Option Nat) == some r.author) = false := by
      rw [beq_eq_false_iff_ne]
      intro he
      injection he with h
      exact hau h.symm
    constructor
    · simp only [recipeUpdate]
      split
      · next hnone =>
        rw [hfind] at hnone
        exact Option.noConfusion hnone
      · next r' hfind' =>
        rw [hfind] at hfind'
        injection hfind' with hr'
        subst hr'
        have hp : has_object_permission Method.patch (some u) r.author = false := by
          simp only [has_object_permission]
          rw [if_neg (by decide : ¬ Method.patch ∈ SAFE_METHODS)]
          exact hne
        rw [if_neg (by rw [hp]; exact Bool.false_ne_true)]
    · simp only [recipeDestroy]
      split
      · next hnone =>
        rw [hfind] at hnone
        exact Option.noConfusion hnone
      · next r' hfind' =>
        rw [hfind] at hfind'
        injection hfind' with hr'
        subst hr'
        have hp : has_object_permission Method.delete (some u) r.author = false := by
          simp only [has_object_permission]
          rw [if_neg (by decide : ¬ Method.delete ∈ SAFE_METHODS)]
          exact hne
        rw [if_neg (by rw [hp]; exact Bool.false_ne_true)]

/-- Users 1 and 2 with one recipe authored by user 2. -/
def c4State : State :=
  { State.empty with users := [1, 2], recipes := [⟨1, 2, "r", "", [], 5, 0⟩] }

theorem c4_permissions_witness :
    favorite c4State none 1 = (401, c4State) ∧
    recipeRetrieve c4State none 1 = (200, some ⟨1, 2, "r", "", [], 5, 0⟩) ∧
    recipeUpdate c4State (some 1) 1 ⟨[⟨1, 1⟩], [1], "x", "y", 1⟩ = (403, c4State) :=
  ⟨(c4_permissions c4State 1 1 1 0 ⟨[⟨1, 1⟩], [1], "x", "y", 1⟩
      ⟨[], none, none, none⟩ none ⟨1, 2, "r", "", [], 5, 0⟩).1,
   (c4_permissions c4State 1 1 1 0 ⟨[⟨1, 1⟩], [1], "x", "y", 1⟩
      ⟨[], none, none, none⟩ none ⟨1, 2, "r", "", [], 5, 0⟩).2.2.2.2.2.2.2.2.2.2.2.2.1
     (by decide),
   ((c4_permissions c4State 1 1 1 0 ⟨[⟨1, 1⟩], [1], "x", "y", 1⟩
      ⟨[], none, none, none⟩ none ⟨1, 2, "r", "", [], 5, 0⟩).2.2.2.2.2.2.2.2.2.2.2.2.2
     (by decide) (by decide)).1⟩

/-- A database with one user, one tag and one ingredient. -/
def c5State : State :=
  { State.empty with
    users := [1], tags := [⟨1, "Breakfast", "#E26C2D", "breakfast"⟩],
    ingredients := [⟨1, "salt", "g"⟩] }

/-- A recipe-create request that passes every validator of
`RecipeWriteSerializer`. -/
def c5Input : RecipeInput :=
  { ingredients := [⟨1, 5⟩], tags := [1], name := "soup", text := "boil",
    cooking_time := 10 }

/-- C5: the validators behave as claimed on bad input (empty or
duplicated ingredients, non-positive amount, empty tags all answer 400
with no change), but a request that passes them does *not* produce a
recipe: `perform_create` runs `serializer.save(author=request.user)`,
so the `validated_data` reaching `RecipeWriteSerializer.create` binds
`author`, and `Recipe.objects.create(author=request.user,
**validated_data)` raises `TypeError: got multiple values for keyword
argument 'author'`; the endpoint answers 500 and stores nothing. -/
theorem c5_create_type_error :
    run_validation c5State c5Input = true ∧
    recipeCreate c5State (some 1) c5Input 0 = (500, c5State) ∧
    serializer_save_create c5State (some 1)
        ⟨c5Input.ingredients, c5Input.tags, c5Input.name, c5Input.text,
          c5Input.cooking_time, false⟩ true 0
      = Except.error "TypeError: create() got multiple values for keyword argument author" ∧
    (∀ (s : State) (user : Option Nat) (inp : RecipeInput) (d : Nat),
      (inp.ingredients = [] ∨ ¬ (inp.ingredients.map IngredientInput.id).Nodup ∨
        (∃ it ∈ inp.ingredients, it.amount ≤ 0) ∨ inp.tags = []) →
      recipeCreate s user inp d = (400, s)) := by
  refine ⟨rfl, rfl, rfl, ?_⟩
  intro s user inp d hbad
  have hv : run_validation s inp = false := by
    rcases hbad with h | h | ⟨it, hit, hle⟩ | h
    · simp [run_validation, validate_ingredients, h]
    · have hd : decide (inp.ingredients.map IngredientInput.id).Nodup = false :=
        decide_eq_false h
      simp [run_validation, validate_ingredients, hd]
    · have ha : inp.ingredients.all (fun it => validate_amount it.amount) = false := by
        rw [List.all_eq_false]
        exact ⟨it, hit, by simp [validate_amount, hle]⟩
      simp [run_validation, ha]
    · simp [run_validation, validate_tags, h]
  simp only [recipeCreate]
  rw [if_neg (by rw [hv]; exact Bool.false_ne_true)]

/-- C9: with a non-empty `name` parameter the ingredient listing holds
exactly the ingredients whose name starts with the parameter compared
case-insensitively; with no parameter it holds all ingredients; in both
cases the rows are in name order. -/
theorem c9_ingredient_search (s : State) (n : String) (hn : n ≠ "") :
    (ingredient_queryset s (some n)).Perm
        (s.ingredients.filter (fun i => istartswith i.name n)) ∧
    (∀ i, i ∈ ingredient_queryset s (some n) ↔
      i ∈ s.ingredients ∧ istartswith i.name n = true) ∧
    (ingredient_queryset s (some n)).Pairwise (fun a b => strLe a.name b.name = true) ∧
    (ingredient_queryset s none).Perm s.ingredients ∧
    (ingredient_queryset s none).Pairwise (fun a b => strLe a.name b.name = true) := by
  have hbase := List.perm_insertionSort
    (fun a b : IngredientRow => strLe a.name b.name = true) s.ingredients
  have hsorted := List.sorted_insertionSort
    (fun a b : IngredientRow => strLe a.name b.name = true) s.ingredients
  have hq : ingredient_queryset s (some n)
      = (List.insertionSort (fun a b : IngredientRow => strLe a.name b.name = true)
          s.ingredients).filter (fun i => istartswith i.name n) := by
    simp only [ingredient_queryset]
    rw [if_neg hn]
  refine ⟨?_, ?_, ?_, hbase, hsorted⟩
  · rw [hq]
    exact hbase.filter _
  · intro i
    rw [hq, List.mem_filter, hbase.mem_iff]
  · rw [hq]
    exact hsorted.sublist (List.filter_sublist _)

/-- Three ingredients whose names exercise the case-insensitive search. -/
def c9State : State :=
  { State.empty with
    ingredients := [⟨1, "Sugar", "g"⟩, ⟨2, "salt", "g"⟩, ⟨3, "flour", "g"⟩] }

theorem c9_ingredient_search_witness :
    (ingredient_queryset c9State (some "s")).Perm
      (c9State.ingredients.filter (fun i => istartswith i.name "s")) ∧
    (ingredient_queryset c9State (some "s")).Pairwise
      (fun a b => strLe a.name b.name = true) :=
  ⟨(c9_ingredient_search c9State "s" (by decide)).1,
   (c9_ingredient_search c9State "s" (by decide)).2.2.1⟩

example :
    ingredient_queryset c9State (some "s")
      = [⟨1, "Sugar", "g"⟩, ⟨2, "salt", "g"⟩] := by decide

example :
    ingredient_queryset c9State none
      = [⟨1, "Sugar", "g"⟩, ⟨3, "flour", "g"⟩, ⟨2, "salt", "g"⟩] := by decide

theorem mem_dedupBy_of_mem {α β : Type} [DecidableEq β] (key : α → β) :
    ∀ {l : List α} {a : α}, a ∈ l → (∀ b ∈ l, key b = key a → b = a) →
      a ∈ dedupBy key l := by
  intro l
  induction l with
  | nil => intro a h _; cases h
  | cons x xs ih =>
    intro a h huniq
    rcases List.mem_cons.1 h with rfl | h'
    · exact List.mem_cons_self _ _
    · by_cases hax : a = x
      · exact hax ▸ List.mem_cons_self _ _
      · have hk : key a ≠ key x := fun hk =>
          hax (huniq x (List.mem_cons_self x xs) (hk.symm) ▸ rfl)
        refine List.mem_cons_of_mem x (List.mem_filter.2 ⟨?_, ?_⟩)
        · exact ih h' (fun b hb hbk => huniq b (List.mem_cons_of_mem x hb) hbk)
        · simpa [bne_iff_ne] using hk

/-- C10: filtering recipes by one or more tag slugs returns exactly the
recipes carrying at least one requested slug (OR semantics), each
matching recipe exactly once, ordered by descending publication date. -/
theorem c10_tag_filter (s : State) (user : Option Nat) (slugs : List String)
    (hs : slugs ≠ []) (hids : (s.recipes.map RecipeRow.id).Nodup) :
    (∀ r, r ∈ recipe_queryset s user ⟨slugs, none, none, none⟩ ↔
      (r ∈ s.recipes ∧ ∃ t ∈ r.tags, ∃ tr ∈ s.tags, tr.id = t ∧ tr.slug ∈ slugs)) ∧
    (recipe_queryset s user ⟨slugs, none, none, none⟩).Nodup ∧
    (∀ r, r ∈ recipe_queryset s user ⟨slugs, none, none, none⟩ →
      (recipe_queryset s user ⟨slugs, none, none, none⟩).count r = 1) ∧
    (recipe_queryset s user ⟨slugs, none, none, none⟩).Pairwise
      (fun a b => b.pub_date ≤ a.pub_date) := by
  cases slugs with
  | nil => exact absurd rfl hs
  | cons a0 l0 =>
    have hq : recipe_queryset s user ⟨a0 :: l0, none, none, none⟩
        = List.insertionSort (fun x y : RecipeRow => y.pub_date ≤ x.pub_date)
            (dedupBy RecipeRow.id
              (s.recipes.flatMap
                (fun r => (tagMatches s r (a0 :: l0)).map (fun _ => r)))) := by
      cases user with
      | none => rfl
      | some u => rfl
    have hperm := List.perm_insertionSort
      (fun x y : RecipeRow => y.pub_date ≤ x.pub_date)
      (dedupBy RecipeRow.id
        (s.recipes.flatMap (fun r => (tagMatches s r (a0 :: l0)).map (fun _ => r))))
    have hJmem : ∀ r : RecipeRow,
        r ∈ s.recipes.flatMap (fun q => (tagMatches s q (a0 :: l0)).map (fun _ => q)) ↔
          (r ∈ s.recipes ∧ tagMatches s r (a0 :: l0) ≠ []) := by
      intro r
      constructor
      · intro h
        obtain ⟨q, hq', hr⟩ := List.mem_flatMap.1 h
        obtain ⟨t, ht, rfl⟩ := List.mem_map.1 hr
        exact ⟨hq', fun he => by rw [he] at ht; cases ht⟩
      · rintro ⟨h1, h2⟩
        refine List.mem_flatMap.2 ⟨r, h1, ?_⟩
        cases htm : tagMatches s r (a0 :: l0) with
        | nil => exact absurd htm h2
        | cons t ts =>
          exact List.mem_map.2 ⟨t, htm ▸ List.mem_cons_self t ts, rfl⟩
    have hDmem : ∀ r : RecipeRow,
        r ∈ dedupBy RecipeRow.id
            (s.recipes.flatMap (fun q => (tagMatches s q (a0 :: l0)).map (fun _ => q))) ↔
          r ∈ s.recipes.flatMap (fun q => (tagMatches s q (a0 :: l0)).map (fun _ => q)) := by
      intro r
      constructor
      · exact mem_of_mem_dedupBy _
      · intro h
        refine mem_dedupBy_of_mem _ h ?_
        intro b hb hbid
        exact List.inj_on_of_nodup_map hids ((hJmem b).1 hb).1 ((hJmem r).1 h).1 hbid
    have htm : ∀ r : RecipeRow, (tagMatches s r (a0 :: l0) ≠ []) ↔
        ∃ t ∈ r.tags, ∃ tr ∈ s.tags, tr.id = t ∧ tr.slug ∈ (a0 :: l0) := by
      intro r
      simp only [tagMatches, Ne, List.filter_eq_nil_iff]
      push_neg
      constructor
      · rintro ⟨t, ht, hpred⟩
        obtain ⟨tr, htr, hconj⟩ := List.any_eq_true.1 hpred
        simp only [Bool.and_eq_true, beq_iff_eq] at hconj
        exact ⟨t, ht, tr, htr, hconj.1, List.elem_iff.1 hconj.2⟩
      · rintro ⟨t, ht, tr, htr, hid, hslug⟩
        exact ⟨t, ht, List.any_eq_true.2 ⟨tr, htr, by simp [hid, hslug]⟩⟩
    have hnodup : (dedupBy RecipeRow.id
        (s.recipes.flatMap (fun q => (tagMatches s q (a0 :: l0)).map (fun _ => q)))).Nodup :=
      (nodup_map_dedupBy RecipeRow.id _).of_map
    refine ⟨?_, ?_, ?_, ?_⟩
    · intro r
      rw [hq, hperm.mem_iff, hDmem r, hJmem r, and_congr_right_iff]
      intro _
      exact htm r
    · rw [hq]
      exact hperm.nodup_iff.2 hnodup
    · intro r hr
      rw [hq] at hr ⊢
      exact List.count_eq_one_of_mem (hperm.nodup_iff.2 hnodup) hr
    · rw [hq]
      exact List.sorted_insertionSort _ _

/-- Two tags and three recipes (recipe 3 carries both tags). -/
def c10State : State :=
  { State.empty with
    tags := [⟨1, "Breakfast", "#111111", "breakfast"⟩, ⟨2, "Dinner", "#222222", "dinner"⟩],
    recipes := [⟨1, 1, "r1", "", [1], 5, 10⟩, ⟨2, 1, "r2", "", [2], 5, 20⟩,
                ⟨3, 1, "r3", "", [1, 2], 5, 30⟩] }

theorem c10_tag_filter_witness :
    (recipe_queryset c10State none ⟨["breakfast", "dinner"], none, none, none⟩).Nodup ∧
    (∀ r, r ∈ recipe_queryset c10State none ⟨["breakfast", "dinner"], none, none, none⟩ →
      (recipe_queryset c10State none ⟨["breakfast", "dinner"], none, none, none⟩).count r
        = 1) ∧
    (recipe_queryset c10State none ⟨["breakfast", "dinner"], none, none, none⟩).Pairwise
      (fun a b => b.pub_date ≤ a.pub_date) :=
  ⟨(c10_tag_filter c10State none ["breakfast", "dinner"] (by decide) (by decide)).2.1,
   (c10_tag_filter c10State none ["breakfast", "dinner"] (by decide) (by decide)).2.2.1,
   (c10_tag_filter c10State none ["breakfast", "dinner"] (by decide) (by decide)).2.2.2⟩

example :
    recipe_queryset c10State none ⟨["breakfast"], none, none, none⟩
      = [⟨3, 1, "r3", "", [1, 2], 5, 30⟩, ⟨1, 1, "r1", "", [1], 5, 10⟩] := by decide

example :
    recipe_queryset c10State none ⟨["breakfast", "dinner"], none, none, none⟩
      = [⟨3, 1, "r3", "", [1, 2], 5, 30⟩, ⟨2, 1, "r2", "", [2], 5, 20⟩,
         ⟨1, 1, "r1", "", [1], 5, 10⟩] := by decide

/-- C1: for an authenticated user, an empty shopping cart makes
`download_shopping_cart` answer 400 with no list; a non-empty cart
answers 200 with the rendered aggregation — one line per distinct
(ingredient name, measurement unit) pair occurring among the cart
recipes' `RecipeIngredient` rows, each line's amount the sum of the
matching rows' amounts, lines ordered by ingredient name. -/
theorem c1_download_shopping_cart (s : State) (u : Nat) :
    (s.shoppingCarts.filter (fun p => p.1 == u) = [] →
      download_shopping_cart s (some u) = (400, [])) ∧
    (s.shoppingCarts.filter (fun p => p.1 == u) ≠ [] →
      (download_shopping_cart s (some u)).1 = 200 ∧
      (download_shopping_cart s (some u)).2 = (cartAgg s u).map renderLine ∧
      ((cartAgg s u).map Prod.fst).Nodup ∧
      (∀ k : String × String, k ∈ (cartAgg s u).map Prod.fst ↔
        ∃ ri ∈ cartRIRows s u, ingKey s ri.ingredient = k) ∧
      (∀ e ∈ cartAgg s u,
        e.2 = (((cartRIRows s u).filter
          (fun ri => ingKey s ri.ingredient == e.1)).map RIRow.amount).sum) ∧
      (cartAgg s u).Pairwise (fun a b => strLe a.1.1 b.1.1 = true)) := by
  have hkeysnodup := nodup_map_dedupBy
    (fun ri => ingKey s ri.ingredient) (cartRIRows s u)
  have hpermk := List.perm_insertionSort
    (fun a b : String × String => strLe a.1 b.1 = true)
    ((dedupBy (fun ri => ingKey s ri.ingredient) (cartRIRows s u)).map
      (fun ri => ingKey s ri.ingredient))
  have hfst : (cartAgg s u).map Prod.fst
      = List.insertionSort (fun a b : String × String => strLe a.1 b.1 = true)
          ((dedupBy (fun ri => ingKey s ri.ingredient) (cartRIRows s u)).map
            (fun ri => ingKey s ri.ingredient)) := by
    simp only [cartAgg]
    rw [List.map_map]
    exact List.map_id' _
  refine ⟨?_, fun hne => ⟨?_, ?_, ?_, ?_, ?_, ?_⟩⟩
  · intro h
    simp only [download_shopping_cart]
    rw [if_pos (by rw [h]; rfl)]
  · simp only [download_shopping_cart]
    rw [if_neg (fun hc => hne (List.isEmpty_iff.1 hc))]
  · simp only [download_shopping_cart]
    rw [if_neg (fun hc => hne (List.isEmpty_iff.1 hc))]
  · rw [hfst]
    exact hpermk.nodup_iff.2 hkeysnodup
  · intro k
    rw [hfst, hpermk.mem_iff, mem_map_dedupBy, List.mem_map]
  · intro e he
    simp only [cartAgg] at he
    obtain ⟨k, hk, rfl⟩ := List.mem_map.1 he
    rfl
  · have : (cartAgg s u).Pairwise (fun a b => strLe a.1.1 b.1.1 = true) := by
      simp only [cartAgg]
      rw [List.pairwise_map]
      exact List.sorted_insertionSort _ _
    exact this

/-- User 1 with two recipes in the cart sharing the ingredient `salt`. -/
def c1State : State :=
  { State.empty with
    users := [1],
    ingredients := [⟨1, "salt", "g"⟩, ⟨2, "flour", "g"⟩],
    recipes := [⟨1, 1, "r1", "", [], 5, 0⟩, ⟨2, 1, "r2", "", [], 5, 1⟩],
    recipeIngredients := [⟨1, 1, 3⟩, ⟨1, 2, 100⟩, ⟨2, 1, 4⟩],
    shoppingCarts := [(1, 1), (1, 2)] }

theorem c1_download_shopping_cart_witness :
    download_shopping_cart c1State (some 2) = (400, []) ∧
    (download_shopping_cart c1State (some 1)).1 = 200 ∧
    ((cartAgg c1State 1).map Prod.fst).Nodup :=
  ⟨(c1_download_shopping_cart c1State 2).1 (by decide),
   ((c1_download_shopping_cart c1State 1).2 (by decide)).1,
   ((c1_download_shopping_cart c1State 1).2 (by decide)).2.2.1⟩
